import Mathlib

/-!
Verification of the noop-inc/blueprint-todo-nodejs-react services.

The development shallowly embeds the JavaScript services:

* `src/mcp-service/index.js` — the MCP variant with per-request session
  registries (`mcpServers` / `mcpTransports` as JS `Set`s), its cleanup
  routine `mcpCleanup`, and its `externalUrlToImageId` that enforces a
  100KB ceiling;
* `src/mcp-service/mcp.js` — the MCP variant whose `externalUrlToImageId`
  has no size ceiling and whose image pipeline targets webp;
* `src/api-service/index.js` — the REST facade, whose `streamToImageId`
  targets avif and whose create route drives `busboy` with
  `limits: { fileSize: 1028 ** 2, files: 6 }`.

The DynamoDB and S3 adapters (`./dynamodb.js`, `./s3.js`) are repository
files that are not part of the sources here; they are modelled from the
spec where a claim depends on them (item records keyed by id, scan in
creation order, blobs keyed by id).  JavaScript `throw`/`catch` is
modelled with `Except`; machine integers are `Nat` (dimensions, byte
counts and timestamps are small positive JS numbers, no overflow is in
range).
-/

namespace TodoApp

/-! ## Session cleanup (src/mcp-service/index.js, lines 322–354)

The module keeps two live-session registries, `mcpServers` and
`mcpTransports` (JS `Set`s, modelled as duplicate-free lists of
identifiers).  `mcpCleanup` runs when the response closes:

```
try { await mcpTransport.close(); mcpTransports.delete(mcpTransport) }
catch (error) { console.log(... 'mcp.transport.close.error' ...) }
try { await mcpServer.close(); mcpServers.delete(mcpServer) }
catch (error) { console.log(... 'mcp.server.close.error' ...) }
```

The outcome of each `close()` call is an input of the model (`tOk`,
`sOk`); the trace of performed actions is returned alongside the final
registries.  The function is total: no branch re-raises. -/

/-- One observable action of the cleanup routine of
`src/mcp-service/index.js`. -/
inductive CloseEvent where
  | closeTransport
  | closeServer
  | logTransportError
  | logServerError
  | removeTransport
  | removeServer
deriving DecidableEq, Repr

/-- The two module-level live-session registries `mcpTransports` and
`mcpServers` of `src/mcp-service/index.js` (JS `Set`s of object
identities, modelled by identifier lists). -/
structure SessionRegistry where
  transports : List String
  servers : List String
deriving DecidableEq, Repr

/-- Embedding of `mcpCleanup` (src/mcp-service/index.js lines 338–352):
close the transport, deleting it from `mcpTransports` on success and
logging on failure, then close the server, deleting it from `mcpServers`
on success and logging on failure.  `tOk` and `sOk` are the outcomes of
the two `close()` calls.  Returns the updated registries and the ordered
trace of performed actions. -/
def mcpCleanup (t s : String) (tOk sOk : Bool) (reg : SessionRegistry) :
    SessionRegistry × List CloseEvent :=
  let step1 : SessionRegistry × List CloseEvent :=
    if tOk then
      ({ reg with transports := reg.transports.filter (fun x => x ≠ t) },
        [CloseEvent.closeTransport, CloseEvent.removeTransport])
    else
      (reg, [CloseEvent.closeTransport, CloseEvent.logTransportError])
  let step2 : SessionRegistry × List CloseEvent :=
    if sOk then
      ({ step1.1 with servers := step1.1.servers.filter (fun x => x ≠ s) },
        [CloseEvent.closeServer, CloseEvent.removeServer])
    else
      (step1.1, [CloseEvent.closeServer, CloseEvent.logServerError])
  (step2.1, step1.2 ++ step2.2)

/-- **C1 (amended)** — when the underlying response closes, the cleanup
routine attempts the transport close first and the server close second;
the server close is attempted whatever the transport close's outcome;
each close failure is only logged (the routine is total, nothing is
rethrown); a component is removed from its live-session registry exactly
when its own close succeeds, and a component whose close failed stays
registered (it is retried by the process-shutdown handler). -/
theorem mcpCleanup_spec (t s : String) (tOk sOk : Bool) (reg : SessionRegistry) :
    (mcpCleanup t s tOk sOk reg).2.head? = some CloseEvent.closeTransport ∧
    CloseEvent.closeServer ∈ (mcpCleanup t s tOk sOk reg).2 ∧
    (tOk = true → t ∉ (mcpCleanup t s tOk sOk reg).1.transports) ∧
    (tOk = false → (mcpCleanup t s tOk sOk reg).1.transports = reg.transports ∧
      CloseEvent.logTransportError ∈ (mcpCleanup t s tOk sOk reg).2) ∧
    (sOk = true → s ∉ (mcpCleanup t s tOk sOk reg).1.servers) ∧
    (sOk = false → (mcpCleanup t s tOk sOk reg).1.servers = reg.servers ∧
      CloseEvent.logServerError ∈ (mcpCleanup t s tOk sOk reg).2) := by
  cases tOk <;> cases sOk <;>
    simp [mcpCleanup, List.mem_filter]

/-- Witness for C1: in a registry holding one session, a cleanup whose
two closes both succeed leaves the transport deregistered. -/
theorem mcpCleanup_spec_witness :
    "t1" ∉ (mcpCleanup "t1" "s1" true true
      { transports := ["t1"], servers := ["s1"] }).1.transports :=
  (mcpCleanup_spec "t1" "s1" true true
    { transports := ["t1"], servers := ["s1"] }).2.2.1 rfl

/-- Counterexample for C1 as stated: when the transport close fails, the
transport is not removed from the live-session registry even though both
closes have been attempted — it is still registered after cleanup. -/
theorem mcpCleanup_failed_close_not_removed :
    "t1" ∈ (mcpCleanup "t1" "s1" false true
      { transports := ["t1"], servers := ["s1"] }).1.transports ∧
    CloseEvent.closeServer ∈ (mcpCleanup "t1" "s1" false true
      { transports := ["t1"], servers := ["s1"] }).2 := by
  decide

/-! ## Image pipeline dimensions (src/api-service/index.js lines 19–33,
src/mcp-service/mcp.js lines 28–42)

`convertSize = (metadata.height > 640) || (metadata.width > 640)`; when
set, the sharp transformer gets
`resize({ width: 640, height: 640, fit: inside, withoutEnlargement: true })`.
`resizeInside` models sharp's `fit: inside` with `withoutEnlargement`:
scale both dimensions by the same factor so that the larger relative
side becomes the target, never scaling up; fractional pixels are
truncated. -/

/-- The `convertSize` decision shared by `streamToImageId` and
`externalUrlToImageId`: resize exactly when height or width exceeds
640. -/
def needsResize (w h : Nat) : Bool :=
  decide (640 < h) || decide (640 < w)

/-- Model of sharp `resize({width: t, height: t, fit: inside,
withoutEnlargement: true})` applied to a `w × h` source. -/
def resizeInside (w h t : Nat) : Nat × Nat :=
  if w ≤ t ∧ h ≤ t then (w, h)
  else if h ≤ w then (t, h * t / w)
  else (w * t / h, t)

/-- Output dimensions of the ingest pipeline: the resize step is part of
the transformer exactly when `convertSize` holds, and re-encoding alone
does not change dimensions. -/
def streamOutputDims (w h : Nat) : Nat × Nat :=
  if needsResize w h then resizeInside w h 640 else (w, h)

/-- Division bound used for the aspect-ratio rounding estimate:
`a / b * b ≤ a < a / b * b + b` for positive `b`. -/
theorem div_mul_le_and_lt (a b : Nat) (hb : 0 < b) :
    a / b * b ≤ a ∧ a < a / b * b + b := by
  refine ⟨Nat.div_mul_le_self a b, ?_⟩
  have h1 := Nat.div_add_mod a b
  have h2 := Nat.mod_lt a hb
  have h3 : b * (a / b) = a / b * b := Nat.mul_comm b (a / b)
  omega

/-- **C2** — for every successfully decoded source, the pipeline resizes
if and only if the source height exceeds 640 or the source width exceeds
640; the output always fits within 640×640; a source with both
dimensions at most 640 is left dimensionally unchanged (never enlarged);
and in general neither dimension grows, while the aspect ratio is
preserved up to pixel truncation (cross products agree within one
rounding step). -/
theorem resize_pipeline_spec (w h : Nat) (hw : 0 < w) (hh : 0 < h) :
    (needsResize w h = true ↔ (640 < h ∨ 640 < w)) ∧
    (streamOutputDims w h).1 ≤ 640 ∧ (streamOutputDims w h).2 ≤ 640 ∧
    (w ≤ 640 → h ≤ 640 → streamOutputDims w h = (w, h)) ∧
    (streamOutputDims w h).1 ≤ w ∧ (streamOutputDims w h).2 ≤ h ∧
    ((streamOutputDims w h).2 * w ≤ (streamOutputDims w h).1 * h ∧
        (streamOutputDims w h).1 * h < (streamOutputDims w h).2 * w + w ∨
      (streamOutputDims w h).1 * h ≤ (streamOutputDims w h).2 * w ∧
        (streamOutputDims w h).2 * w < (streamOutputDims w h).1 * h + h) := by
  refine ⟨by simp [needsResize, Or.comm], ?_⟩
  by_cases hr : needsResize w h = true
  · have hcond : 640 < h ∨ 640 < w := by
      simpa [needsResize, Or.comm] using hr
    simp only [streamOutputDims, hr, if_true]
    by_cases hhw : h ≤ w
    · have hw640 : 640 < w := by omega
      have hres : resizeInside w h 640 = (640, h * 640 / w) := by
        simp [resizeInside, hhw]
        omega
      rw [hres]
      have hdiv := div_mul_le_and_lt (h * 640) w hw
      have h1 : h * 640 / w ≤ 640 := by
        have : h * 640 ≤ w * 640 := Nat.mul_le_mul_right 640 hhw
        have := Nat.div_le_div_right (c := w) this
        rwa [Nat.mul_div_cancel_left 640 hw] at this
      have h2 : h * 640 / w ≤ h := by
        have : h * 640 ≤ h * w := Nat.mul_le_mul_left h (by omega)
        have := Nat.div_le_div_right (c := w) this
        rwa [Nat.mul_comm h w, Nat.mul_div_cancel_left h hw] at this
      refine ⟨by omega, h1, by omega, by omega, h2, Or.inl ⟨?_, ?_⟩⟩
      · calc h * 640 / w * w ≤ h * 640 := hdiv.1
          _ = 640 * h := Nat.mul_comm h 640
      · calc 640 * h = h * 640 := Nat.mul_comm 640 h
          _ < h * 640 / w * w + w := hdiv.2
    · have hwh : w ≤ h := by omega
      have hh640 : 640 < h := by omega
      have hres : resizeInside w h 640 = (w * 640 / h, 640) := by
        simp [resizeInside, hhw]
        omega
      rw [hres]
      have hdiv := div_mul_le_and_lt (w * 640) h hh
      have h1 : w * 640 / h ≤ 640 := by
        have : w * 640 ≤ h * 640 := Nat.mul_le_mul_right 640 hwh
        have := Nat.div_le_div_right (c := h) this
        rwa [Nat.mul_div_cancel_left 640 hh] at this
      have h2 : w * 640 / h ≤ w := by
        have : w * 640 ≤ w * h := Nat.mul_le_mul_left w (by omega)
        have := Nat.div_le_div_right (c := h) this
        rwa [Nat.mul_comm w h, Nat.mul_div_cancel_left w hh] at this
      refine ⟨h1, by omega, by omega, h2, by omega, Or.inr ⟨?_, ?_⟩⟩
      · calc w * 640 / h * h ≤ w * 640 := hdiv.1
          _ = 640 * w := Nat.mul_comm w 640
      · calc 640 * w = w * 640 := Nat.mul_comm 640 w
          _ < w * 640 / h * h + h := hdiv.2
  · have hcond : ¬ (640 < h ∨ 640 < w) := by
      intro hc
      exact hr (by simpa [needsResize, Or.comm] using hc)
    have hfalse : needsResize w h = false := by
      cases hnr : needsResize w h
      · rfl
      · exact absurd hnr hr
    simp only [streamOutputDims, hfalse, Bool.false_eq_true, if_false]
    have hcomm : w * h = h * w := Nat.mul_comm w h
    refine ⟨by omega, by omega, by intro _ _; trivial,
      Nat.le_refl w, Nat.le_refl h, Or.inl ⟨by omega, by omega⟩⟩

/-- Witness for C2: a 1000×1000 source is resized to exactly 640×640 and
a 200×200 source keeps its dimensions. -/
theorem resize_pipeline_spec_witness :
    (streamOutputDims 1000 1000).1 ≤ 640 ∧ (streamOutputDims 1000 1000).2 ≤ 640 ∧
    streamOutputDims 200 200 = (200, 200) :=
  ⟨(resize_pipeline_spec 1000 1000 (by decide) (by decide)).2.1,
    (resize_pipeline_spec 1000 1000 (by decide) (by decide)).2.2.1,
    (resize_pipeline_spec 200 200 (by decide) (by decide)).2.2.2.1
      (by decide) (by decide)⟩

/-! ## Image pipeline: format decision and upload body

`src/api-service/index.js` (`streamToImageId`, lines 12–45) and
`src/mcp-service/mcp.js` (`externalUrlToImageId`, lines 13–47) share the
decision structure:

```
const convertFormat = !(['avif', 'webp'].includes(metadata.format) ||
  ((metadata.format === 'heif') && (metadata.compression === 'av1')))
const convertSize = (metadata.height > 640) || (metadata.width > 640)
let transformer
if (convertSize || convertFormat) { ... resize if convertSize ... toFormat if convertFormat ... }
... body: transformer ? Readable.from(buffer).pipe(transformer) : buffer ...
```

The uploaded body is modelled symbolically: either the original buffer
bytes, untouched, or the result of piping them through a transformer
with its configured steps. -/

/-- Image formats as reported by `sharp().metadata().format`. -/
inductive ImgFormat where
  | avif
  | webp
  | heif
  | jpeg
  | png
  | gif
  | tiff
deriving DecidableEq, Repr

/-- The metadata fields of the decoded source image that the pipeline
inspects (`sharp(buffer).metadata()`). -/
structure SharpMetadata where
  format : ImgFormat
  compression : Option String
  width : Nat
  height : Nat
deriving DecidableEq, Repr

/-- The `convertFormat` decision of `streamToImageId` and of
`mcp.js`'s `externalUrlToImageId`: re-encode unless the source is AVIF,
WEBP, or AV1-compressed HEIF. -/
def convertFormat (m : SharpMetadata) : Bool :=
  !(decide (m.format = ImgFormat.avif) || decide (m.format = ImgFormat.webp) ||
    (decide (m.format = ImgFormat.heif) && decide (m.compression = some "av1")))

/-- The body handed to `uploadObject`: the untouched source buffer when
no transformer was constructed, otherwise the buffer piped through a
transformer carrying a resize step and/or a target re-encoding. -/
inductive UploadBody where
  | original (buf : List Nat)
  | transformed (resized : Bool) (target : Option ImgFormat) (buf : List Nat)
deriving DecidableEq, Repr

/-- Embedding of the transform-and-upload tail of `streamToImageId`
(src/api-service/index.js lines 18–44): build a transformer only if
`convertSize || convertFormat`, with resize first and AVIF re-encoding
second; the stored content type is `image/avif` unless the source was
already webp (a pre-accepted non-avif source keeps webp). -/
def streamToImageId (buf : List Nat) (m : SharpMetadata) : UploadBody × ImgFormat :=
  let cf := convertFormat m
  let cs := needsResize m.width m.height
  let body :=
    if cs || cf then
      UploadBody.transformed cs (if cf then some ImgFormat.avif else none) buf
    else
      UploadBody.original buf
  let fmt :=
    if cf || decide (m.format = ImgFormat.avif) ||
        (decide (m.format = ImgFormat.heif) && decide (m.compression = some "av1")) then
      ImgFormat.avif
    else
      ImgFormat.webp
  (body, fmt)

/-- Embedding of the transform-and-upload tail of `mcp.js`'s
`externalUrlToImageId` (src/mcp-service/mcp.js lines 27–46): same
decisions as `streamToImageId` but the re-encode target and default
content type are webp (`image/webp` unless the source was already avif
or AV1 HEIF). -/
def externalImageUploadMcp (buf : List Nat) (m : SharpMetadata) : UploadBody × ImgFormat :=
  let cf := convertFormat m
  let cs := needsResize m.width m.height
  let body :=
    if cs || cf then
      UploadBody.transformed cs (if cf then some ImgFormat.webp else none) buf
    else
      UploadBody.original buf
  let fmt :=
    if cf || decide (m.format = ImgFormat.webp) then ImgFormat.webp else ImgFormat.avif
  (body, fmt)

/-- **C3** — a source already in the accepted canonical set (AVIF, WEBP,
or AV1-compressed HEIF) whose width and height are both at most 640 is
passed through unchanged by both ingest pipelines: no transformer is
built and the uploaded body is the source buffer, byte for byte. -/
theorem passthrough_upload (buf : List Nat) (m : SharpMetadata)
    (hfmt : m.format = ImgFormat.avif ∨ m.format = ImgFormat.webp ∨
      (m.format = ImgFormat.heif ∧ m.compression = some "av1"))
    (hwidth : m.width ≤ 640) (hheight : m.height ≤ 640) :
    (streamToImageId buf m).1 = UploadBody.original buf ∧
    (externalImageUploadMcp buf m).1 = UploadBody.original buf := by
  have hcf : convertFormat m = false := by
    rcases hfmt with h | h | ⟨h1, h2⟩
    · simp [convertFormat, h]
    · simp [convertFormat, h]
    · simp [convertFormat, h1, h2]
  have hcs : needsResize m.width m.height = false := by
    simp [needsResize]
    omega
  constructor
  · simp [streamToImageId, hcf, hcs]
  · simp [externalImageUploadMcp, hcf, hcs]

/-- Witness for C3: a 200×200 AVIF source is uploaded untouched by both
pipelines. -/
theorem passthrough_upload_witness :
    (streamToImageId [7, 7, 7]
      { format := ImgFormat.avif, compression := none,
        width := 200, height := 200 }).1 = UploadBody.original [7, 7, 7] ∧
    (externalImageUploadMcp [7, 7, 7]
      { format := ImgFormat.avif, compression := none,
        width := 200, height := 200 }).1 = UploadBody.original [7, 7, 7] :=
  passthrough_upload [7, 7, 7]
    { format := ImgFormat.avif, compression := none, width := 200, height := 200 }
    (Or.inl rfl) (by decide) (by decide)

/-! ## External fetch ingestion and the 100KB ceiling

Three variants of `externalUrlToImageId` exist:

* `src/mcp-service/index.js` lines 30–53 — checks the `content-length`
  header and then the buffered body against `100 * 1024` bytes, and
  uploads the untouched buffer with the reported mime type;
* `src/mcp-service/mcp.js` lines 13–47 — no size check; decodes with
  sharp and runs the resize/re-encode pipeline (`externalImageUploadMcp`);
* `src/unnamed/part_002` lines 13–32 — no size check; always pipes the
  response through `resize(640, inside, withoutEnlargement).toFormat(webp)`.
-/

/-- Model of JavaScript `String.prototype.startsWith`, used by every
ingest variant as `mimetype.startsWith('image/')`. -/
def jsStartsWith (s pre : String) : Bool :=
  pre.data.isPrefixOf s.data

/-- The parts of a `fetch` response the ingest functions inspect. -/
structure FetchResponse where
  ok : Bool
  contentType : Option String
  contentLength : Option Nat
  body : List Nat
deriving DecidableEq, Repr

/-- The failure classes of the external ingest functions, one per
`throw` site. -/
inductive IngestError where
  | fetchFailed
  | noContentType
  | invalidContentType
  | sizeLimitExceeded
deriving DecidableEq, Repr

/-- The constant `oneHundredKBinBytes` of src/mcp-service/index.js line
42. -/
def oneHundredKBinBytes : Nat := 100 * 1024

/-- Embedding of `externalUrlToImageId` from src/mcp-service/index.js
(lines 30–53): reject a failed fetch, a missing or non-image content
type (falling back to `lookup(externalUrl)` for a missing header), a
`content-length` header above 100KB, and a buffered body above 100KB;
otherwise upload the untouched buffer with its mime type. -/
def externalUrlToImageIdSvc (r : FetchResponse) (lookupType : Option String) :
    Except IngestError (List Nat × String) :=
  if !r.ok then Except.error IngestError.fetchFailed
  else
    match r.contentType.orElse (fun _ => lookupType) with
    | none => Except.error IngestError.noContentType
    | some mt =>
      if !(jsStartsWith mt "image/") then Except.error IngestError.invalidContentType
      else if (match r.contentLength with
          | some n => decide (oneHundredKBinBytes < n)
          | none => false) then
        Except.error IngestError.sizeLimitExceeded
      else if oneHundredKBinBytes < r.body.length then
        Except.error IngestError.sizeLimitExceeded
      else
        Except.ok (r.body, mt)

/-- Embedding of `externalUrlToImageId` from src/mcp-service/mcp.js
(lines 13–47): reject a failed fetch and a missing or non-image content
type, then run the resize/re-encode pipeline and upload — with no size
ceiling of any kind. -/
def externalUrlToImageIdMcp (r : FetchResponse) (m : SharpMetadata) :
    Except IngestError (UploadBody × ImgFormat) :=
  if !r.ok then Except.error IngestError.fetchFailed
  else
    match r.contentType with
    | none => Except.error IngestError.noContentType
    | some mt =>
      if !(jsStartsWith mt "image/") then Except.error IngestError.invalidContentType
      else Except.ok (externalImageUploadMcp r.body m)

/-- Embedding of `externalUrlToImageId` from src/unnamed/part_002
(lines 13–32): reject a failed fetch and a missing or non-image content
type, then always pipe the response body through the resize-and-webp
transformer and upload — again with no size ceiling. -/
def externalUrlToImageIdPart2 (r : FetchResponse) :
    Except IngestError (UploadBody × ImgFormat) :=
  if !r.ok then Except.error IngestError.fetchFailed
  else
    match r.contentType with
    | none => Except.error IngestError.noContentType
    | some mt =>
      if !(jsStartsWith mt "image/") then Except.error IngestError.invalidContentType
      else Except.ok (UploadBody.transformed true (some ImgFormat.webp) r.body, ImgFormat.webp)

/-- **C4 (amended)** — only the src/mcp-service/index.js external-fetch
variant enforces the 100KB ceiling: there, a successfully fetched image
body above 102400 bytes fails with the size-limit error before any
upload.  The external-fetch variants of src/mcp-service/mcp.js and
src/unnamed/part_002 apply no ceiling (the same oversized response is
ingested successfully), and the uploaded (non-external)
`streamToImageId` applies no ceiling either — it always uploads a body
derived from the full source buffer. -/
theorem external_fetch_size_limit (r : FetchResponse) (lookupType : Option String)
    (m : SharpMetadata) (mt : String)
    (hok : r.ok = true) (hct : r.contentType = some mt)
    (himg : jsStartsWith mt "image/" = true)
    (hbig : oneHundredKBinBytes < r.body.length) :
    externalUrlToImageIdSvc r lookupType = Except.error IngestError.sizeLimitExceeded ∧
    (externalUrlToImageIdMcp r m).isOk = true ∧
    (externalUrlToImageIdPart2 r).isOk = true ∧
    (∀ (buf : List Nat) (meta : SharpMetadata),
      (streamToImageId buf meta).1 = UploadBody.original buf ∨
      ∃ rs tg, (streamToImageId buf meta).1 = UploadBody.transformed rs tg buf) := by
  have horelse : (r.contentType.orElse fun _ => lookupType) = some mt := by
    rw [hct]
    rfl
  refine ⟨?_, ?_, ?_, ?_⟩
  · simp only [externalUrlToImageIdSvc, hok, horelse, himg, Bool.not_true,
      Bool.false_eq_true, if_false]
    split
    · rfl
    · simp [hbig]
  · simp only [externalUrlToImageIdMcp, hok, hct, himg, Bool.not_true,
      Bool.false_eq_true, if_false]
    rfl
  · simp only [externalUrlToImageIdPart2, hok, hct, himg, Bool.not_true,
      Bool.false_eq_true, if_false]
    rfl
  · intro buf meta
    by_cases hc :
        (needsResize meta.width meta.height || convertFormat meta) = true
    · refine Or.inr ⟨needsResize meta.width meta.height,
        if convertFormat meta then some ImgFormat.avif else none, ?_⟩
      dsimp only [streamToImageId]
      rw [if_pos hc]
    · refine Or.inl ?_
      dsimp only [streamToImageId]
      rw [if_neg hc]

/-- A successfully fetched 102401-byte response with a valid image
content type. -/
def bigResponse : FetchResponse :=
  { ok := true, contentType := some "image/webp",
    contentLength := some 102401, body := List.replicate 102401 0 }

/-- Witness for C4: the src/mcp-service/index.js variant rejects the
102401-byte response with the size-limit error. -/
theorem external_fetch_size_limit_witness :
    externalUrlToImageIdSvc bigResponse none = Except.error IngestError.sizeLimitExceeded :=
  (external_fetch_size_limit bigResponse none
    { format := ImgFormat.webp, compression := none, width := 200, height := 200 }
    "image/webp" rfl rfl (by decide)
    (by show oneHundredKBinBytes < (List.replicate 102401 0).length
        rw [List.length_replicate]
        decide)).1

/-- Counterexample for C4 as stated: the externally-fetched variant of
src/mcp-service/mcp.js ingests a 102401-byte body successfully — it
uploads instead of failing with a size-limit error. -/
theorem external_fetch_no_limit_in_mcp :
    oneHundredKBinBytes < bigResponse.body.length ∧
    (externalUrlToImageIdMcp bigResponse
      { format := ImgFormat.webp, compression := none,
        width := 200, height := 200 }).isOk = true := by
  constructor
  · show oneHundredKBinBytes < (List.replicate 102401 0).length
    rw [List.length_replicate]
    decide
  · rfl

/-! ## Item store, blob store and the todo item record

The item and blob store adapters (`./dynamodb.js`, `./s3.js`) are
repository files that are not among the sources; the definitions below
carry `Modelled from the spec` doc comments.  A todo item record follows
§3 of the spec and the zod `TodoSchema` of the services; a spec-absent
`images` field is represented by the empty list (the spec makes absent
semantically equivalent to empty). -/

/-- A todo item record (spec §3; `TodoSchema` in both MCP services). -/
structure TodoItem where
  id : String
  description : String
  created : Nat
  completed : Bool
  images : List String
deriving DecidableEq, Repr

/-- Modelled from the spec: `getItem` of the missing `./dynamodb.js`
adapter — read the item record keyed by the given id, failing
descriptively when absent (NotFound semantics, spec §4.3/§7). -/
def getItem (store : List TodoItem) (todoId : String) : Except String TodoItem :=
  match store.find? (fun i => i.id == todoId) with
  | some i => Except.ok i
  | none => Except.error "Todo item not found"

/-- Modelled from the spec: `putItem` of the missing `./dynamodb.js`
adapter — whole-record write keyed by the item's id (overwrite in place
when the key exists, else append; spec §3 replace-on-update, §6
persisted-state layout). -/
def putItem (store : List TodoItem) (item : TodoItem) : List TodoItem :=
  if store.any (fun i => i.id == item.id) then
    store.map (fun i => if i.id == item.id then item else i)
  else
    store ++ [item]

/-- Modelled from the spec: `deleteItem` of the missing `./dynamodb.js`
adapter — remove the record keyed by the id. -/
def deleteItem (store : List TodoItem) (todoId : String) : List TodoItem :=
  store.filter (fun i => i.id != todoId)

/-- Modelled from the spec: `scanTable` of the missing `./dynamodb.js`
adapter — all item records, in creation order (spec §4.3 list: ordered
creation-time sequence). -/
def scanTable (store : List TodoItem) : List TodoItem :=
  store

/-- Modelled from the spec: `getObject` of the missing `./s3.js` adapter
— read the blob keyed by the id, failing when absent. -/
def getObject (blobs : List String) (imageId : String) : Except String String :=
  if blobs.any (fun b => b == imageId) then Except.ok imageId
  else Except.error "NoSuchKey"

/-- Modelled from the spec: `deleteObject` of the missing `./s3.js`
adapter — remove the blob keyed by the id. -/
def deleteObject (blobs : List String) (imageId : String) : List String :=
  blobs.filter (fun b => b != imageId)

/-! ## Create handlers (src/mcp-service/mcp.js lines 211–228,
src/api-service/index.js lines 130–175)

Each requested image source is summarised by its ingest outcome
(`Except.ok imageId` when its pipeline run uploaded a blob,
`Except.error _` when it threw).  `Promise.all` rejects on the first
rejection while the other, already-launched ingests still complete their
uploads: the blob store gains every successful upload whether or not the
create as a whole succeeds.  The protocol handler guards
`files.length > 6` before launching any ingest; the REST route instead
relies on `busboy({ limits: { files: 6 } })`, which stops emitting
`file` events after the sixth part and signals no error, so the extra
parts are silently dropped. -/

/-- Embedding of `createTodo.handler` (src/mcp-service/mcp.js lines
211–228).  Returns the item store, the blob store, and the handler
outcome. -/
def createTodoMcp (store : List TodoItem) (blobs : List String)
    (ingests : List (Except IngestError String)) (desc : String)
    (now : Nat) (freshId : String) :
    List TodoItem × List String × Except String TodoItem :=
  if 6 < ingests.length then
    (store, blobs, Except.error "Cannot link more than 6 images to todo item")
  else
    let uploaded := ingests.filterMap (fun e => e.toOption)
    let blobs2 := blobs ++ uploaded
    if ingests.any (fun e => !e.isOk) then
      (store, blobs2, Except.error "image ingest failed")
    else
      let newTodo : TodoItem :=
        { id := freshId, description := desc, created := now,
          completed := false, images := uploaded }
      (putItem store newTodo, blobs2, Except.ok newTodo)

/-- Embedding of `app.post('/api/todos')` (src/api-service/index.js
lines 130–175): busboy's `files: 6` limit truncates to the first six
file parts without raising, then every surviving ingest must succeed
before `putItem` runs. -/
def createTodoRest (store : List TodoItem) (blobs : List String)
    (ingests : List (Except IngestError String)) (desc : String)
    (now : Nat) (freshId : String) :
    List TodoItem × List String × Except String TodoItem :=
  let limited := ingests.take 6
  let uploaded := limited.filterMap (fun e => e.toOption)
  let blobs2 := blobs ++ uploaded
  if limited.any (fun e => !e.isOk) then
    (store, blobs2, Except.error "image ingest failed")
  else
    let newTodo : TodoItem :=
      { id := freshId, description := desc, created := now,
        completed := false, images := uploaded }
    (putItem store newTodo, blobs2, Except.ok newTodo)

/-- **C5 (amended)** — the protocol create rejects a request with more
than 6 image sources with a descriptive error before launching any
ingest: the item store and the blob store are untouched.  The REST
create instead truncates to the first six file parts (busboy
`files: 6`): with those six ingesting successfully it persists an item
carrying exactly their six image ids and reports success. -/
theorem create_seven_images (store : List TodoItem) (blobs : List String)
    (ingests : List (Except IngestError String)) (desc : String)
    (now : Nat) (freshId : String) (h7 : 6 < ingests.length) :
    createTodoMcp store blobs ingests desc now freshId =
      (store, blobs, Except.error "Cannot link more than 6 images to todo item") ∧
    ((ingests.take 6).any (fun e => !e.isOk) = false →
      ∃ item, (createTodoRest store blobs ingests desc now freshId).2.2 =
          Except.ok item ∧
        (createTodoRest store blobs ingests desc now freshId).1 = putItem store item ∧
        item.images = (ingests.take 6).filterMap (fun e => e.toOption)) := by
  constructor
  · dsimp only [createTodoMcp]
    rw [if_pos h7]
  · intro hok
    refine
      ⟨{ id := freshId, description := desc, created := now, completed := false,
         images := (ingests.take 6).filterMap (fun e => e.toOption) },
        ?_, ?_, rfl⟩
    · dsimp only [createTodoRest]
      rw [if_neg (by simp [hok])]
    · dsimp only [createTodoRest]
      rw [if_neg (by simp [hok])]

/-- Witness for C5: with seven successful ingests, the protocol create
fails without touching either store. -/
theorem create_seven_images_witness :
    createTodoMcp [] [] (List.replicate 7 (Except.ok "i.avif")) "d" 5 "id1" =
      ([], [], Except.error "Cannot link more than 6 images to todo item") :=
  (create_seven_images [] [] (List.replicate 7 (Except.ok "i.avif")) "d" 5 "id1"
    (by decide)).1

/-- Counterexample for C5 as stated: a REST create request with 7
successfully ingestible file parts does not fail — it persists an item
built from the first six parts. -/
theorem rest_create_seven_images_persists :
    (createTodoRest [] [] (List.replicate 7 (Except.ok "i.avif")) "d" 5 "id1").2.2 =
      Except.ok
        { id := "id1", description := "d", created := 5,
          completed := false, images := List.replicate 6 "i.avif" } ∧
    (createTodoRest [] [] (List.replicate 7 (Except.ok "i.avif")) "d" 5 "id1").1 =
      [{ id := "id1", description := "d", created := 5,
         completed := false, images := List.replicate 6 "i.avif" }] :=
  ⟨rfl, rfl⟩

/-- **C6** — an item is persisted only after every requested ingest has
succeeded: when any ingest fails the handler returns an error and the
item store is unchanged, while the blob store still gains every
successful upload (no rollback); when all ingests succeed, the new item
is written with exactly the ingested image ids. -/
theorem create_all_or_nothing (store : List TodoItem) (blobs : List String)
    (ingests : List (Except IngestError String)) (desc : String)
    (now : Nat) (freshId : String) (hlen : ingests.length ≤ 6) :
    (ingests.any (fun e => !e.isOk) = true →
      (createTodoMcp store blobs ingests desc now freshId).1 = store ∧
      (createTodoMcp store blobs ingests desc now freshId).2.1 =
        blobs ++ ingests.filterMap (fun e => e.toOption) ∧
      (createTodoMcp store blobs ingests desc now freshId).2.2 =
        Except.error "image ingest failed") ∧
    (ingests.any (fun e => !e.isOk) = false →
      (createTodoMcp store blobs ingests desc now freshId).1 =
        putItem store
          { id := freshId, description := desc, created := now,
            completed := false,
            images := ingests.filterMap (fun e => e.toOption) } ∧
      (createTodoMcp store blobs ingests desc now freshId).2.2 =
        Except.ok
          { id := freshId, description := desc, created := now,
            completed := false,
            images := ingests.filterMap (fun e => e.toOption) }) := by
  have hguard : ¬ 6 < ingests.length := by omega
  constructor
  · intro hfail
    dsimp only [createTodoMcp]
    rw [if_neg hguard, if_pos hfail]
    exact ⟨rfl, rfl, rfl⟩
  · intro hok
    dsimp only [createTodoMcp]
    rw [if_neg hguard, if_neg (by simp [hok])]
    exact ⟨rfl, rfl⟩

/-- Witness for C6: with one failed ingest among two, the item store is
untouched, the successful upload stays in the blob store, and the
handler reports the failure. -/
theorem create_all_or_nothing_witness :
    (createTodoMcp [] ["old.webp"]
      [Except.ok "a.avif", Except.error IngestError.fetchFailed]
      "d" 5 "id1").1 = [] ∧
    (createTodoMcp [] ["old.webp"]
      [Except.ok "a.avif", Except.error IngestError.fetchFailed]
      "d" 5 "id1").2.1 = ["old.webp", "a.avif"] ∧
    (createTodoMcp [] ["old.webp"]
      [Except.ok "a.avif", Except.error IngestError.fetchFailed]
      "d" 5 "id1").2.2 = Except.error "image ingest failed" := by
  have h := (create_all_or_nothing [] ["old.webp"]
    [Except.ok "a.avif", Except.error IngestError.fetchFailed]
    "d" 5 "id1" (by decide)).1 (by decide)
  exact ⟨h.1, by rw [h.2.1]; rfl, h.2.2⟩

/-! ## Update handlers (src/mcp-service/mcp.js lines 248–255,
src/api-service/index.js lines 205–224)

Both handlers read the existing item, shallow-merge the caller body over
it (`{ ...existingItem, ...body }`) and write the merge back.  They
differ in what the body can contain: the protocol tool's zod input
schema admits only optional `description` and `completed` (`todoId` is
destructured away before the merge, unknown keys are stripped by schema
parsing), while the REST route merges the raw `express.json` body, so
any record field can be supplied. -/

/-- The caller-suppliable fields of the protocol update tool after
schema parsing. -/
structure McpUpdateBody where
  description : Option String
  completed : Option Bool
deriving DecidableEq, Repr

/-- The shallow merge of `updateTodo.handler` (src/mcp-service/mcp.js
line 250) under the schema-restricted body. -/
def shallowMergeMcp (existing : TodoItem) (body : McpUpdateBody) : TodoItem :=
  { existing with
    description := body.description.getD existing.description,
    completed := body.completed.getD existing.completed }

/-- The record fields a raw REST JSON body can supply (absent field ↦
`none`). -/
structure RestUpdateBody where
  id : Option String
  description : Option String
  created : Option Nat
  completed : Option Bool
  images : Option (List String)
deriving DecidableEq, Repr

/-- The shallow merge `{ ...existingItem, ...body }` of the REST update
route (src/api-service/index.js line 211): every supplied key overwrites
the stored one. -/
def shallowMergeRest (existing : TodoItem) (body : RestUpdateBody) : TodoItem :=
  { id := body.id.getD existing.id,
    description := body.description.getD existing.description,
    created := body.created.getD existing.created,
    completed := body.completed.getD existing.completed,
    images := body.images.getD existing.images }

/-- Embedding of `updateTodo.handler` (src/mcp-service/mcp.js lines
248–255): read the existing item, shallow-merge, write back. -/
def updateTodoMcp (store : List TodoItem) (todoId : String)
    (body : McpUpdateBody) : Except String (List TodoItem × TodoItem) :=
  match getItem store todoId with
  | Except.error e => Except.error e
  | Except.ok existing =>
    let updated := shallowMergeMcp existing body
    Except.ok (putItem store updated, updated)

/-- Embedding of `app.put('/api/todos/:todoId')`
(src/api-service/index.js lines 205–224): identical flow over the raw
JSON body. -/
def updateTodoRest (store : List TodoItem) (todoId : String)
    (body : RestUpdateBody) : Except String (List TodoItem × TodoItem) :=
  match getItem store todoId with
  | Except.error e => Except.error e
  | Except.ok existing =>
    let updated := shallowMergeRest existing body
    Except.ok (putItem store updated, updated)

/-- Writing back a record whose key was just read leaves it readable:
the keyed overwrite of `putItem` stores exactly the merged record. -/
theorem getItem_putItem_found (store : List TodoItem) (todoId : String)
    (existing u : TodoItem) (hfound : getItem store todoId = Except.ok existing)
    (hid : u.id = todoId) :
    getItem (putItem store u) todoId = Except.ok u := by
  have hf : store.find? (fun i => i.id == todoId) = some existing := by
    dsimp only [getItem] at hfound
    rcases hfs : store.find? (fun i => i.id == todoId) with _ | i
    · rw [hfs] at hfound
      exact absurd hfound (by simp)
    · rw [hfs] at hfound
      have hie : i = existing := by simpa using hfound
      rw [hfs, hie]
  have hexid' : existing.id = todoId := by
    have := List.find?_some hf
    simpa using this
  have hmem : existing ∈ store := List.mem_of_find?_eq_some hf
  have hany : store.any (fun i => i.id == u.id) = true := by
    rw [List.any_eq_true]
    exact ⟨existing, hmem, by simp [hexid', hid]⟩
  have hcomp :
      ((fun i : TodoItem => (i.id == todoId)) ∘
          fun i : TodoItem => if i.id == u.id then u else i) =
        fun i : TodoItem => (i.id == todoId) := by
    funext i
    by_cases hi : i.id = u.id
    · simp [Function.comp, hi, hid]
    · simp [Function.comp, hi]
  dsimp only [getItem, putItem]
  rw [if_pos hany, List.find?_map, hcomp, hf]
  simp [hexid', hid]

/-- **C7 (amended)** — the protocol update cannot touch `images`, `id`
or `created` for any caller body: the written-back record keeps all
three, and reading the item back returns exactly the merged record; a
body carrying only `completed: true` changes only `completed` under
both the protocol and the REST merge.  (The REST route, by contrast,
shallow-merges the raw JSON body, so a body that names `images`, `id`
or `created` does overwrite them — see the counterexample.) -/
theorem update_frame (store : List TodoItem) (todoId : String)
    (body : McpUpdateBody) (existing : TodoItem)
    (hfound : getItem store todoId = Except.ok existing) :
    updateTodoMcp store todoId body =
      Except.ok (putItem store (shallowMergeMcp existing body),
        shallowMergeMcp existing body) ∧
    (shallowMergeMcp existing body).id = existing.id ∧
    (shallowMergeMcp existing body).created = existing.created ∧
    (shallowMergeMcp existing body).images = existing.images ∧
    getItem (putItem store (shallowMergeMcp existing body)) todoId =
      Except.ok (shallowMergeMcp existing body) ∧
    shallowMergeMcp existing { description := none, completed := some true } =
      { existing with completed := true } ∧
    shallowMergeRest existing
        { id := none, description := none, created := none,
          completed := some true, images := none } =
      { existing with completed := true } := by
  have hid : (shallowMergeMcp existing body).id = existing.id := rfl
  have hexid' : existing.id = todoId := by
    dsimp only [getItem] at hfound
    rcases hfs : store.find? (fun i => i.id == todoId) with _ | i
    · rw [hfs] at hfound
      exact absurd hfound (by simp)
    · rw [hfs] at hfound
      have hie : i = existing := by simpa using hfound
      subst hie
      have := List.find?_some hfs
      simpa using this
  refine ⟨?_, rfl, rfl, rfl, ?_, ?_, ?_⟩
  · dsimp only [updateTodoMcp]
    rw [hfound]
  · exact getItem_putItem_found store todoId existing _ hfound (hid.trans hexid')
  · simp [shallowMergeMcp]
  · simp [shallowMergeRest]

/-- A stored sample item used by the update and delete examples. -/
def sampleItem : TodoItem :=
  { id := "todo1", description := "Buy milk", created := 100,
    completed := false, images := ["img1.avif"] }

/-- Witness for C7: updating the sample item with `completed: true`
leaves `description`, `created`, `id` and `images` unchanged. -/
theorem update_frame_witness :
    shallowMergeMcp sampleItem { description := none, completed := some true } =
      { id := "todo1", description := "Buy milk", created := 100,
        completed := true, images := ["img1.avif"] } :=
  ((update_frame [sampleItem] "todo1"
      { description := none, completed := some true } sampleItem rfl).2.2.2.2.2.1).trans
    rfl

/-- Counterexample for C7 as stated: the REST update merges the raw
body, so a caller body naming `images` replaces the stored item's
`images` list. -/
theorem rest_update_overwrites_images :
    (updateTodoRest [sampleItem] "todo1"
      { id := none, description := none, created := none, completed := none,
        images := some ["sneaky.avif"] }).toOption.map
      (fun p => p.2.images) = some ["sneaky.avif"] ∧
    sampleItem.images = ["img1.avif"] :=
  ⟨rfl, rfl⟩

/-! ## Delete handler (src/mcp-service/mcp.js lines 271–297,
src/api-service/index.js lines 229–253)

`deleteTodo` reads the item, then runs `deleteItem(todoId)` and one
`deleteObject` per referenced image id concurrently under `Promise.all`,
and reports the deleted todo id together with one deletion message per
removed image id (`structuredContent: { id, deleted: true }`). -/

/-- The deletion confirmation: the deleted item id and the image ids
reported removed (one content message each in the JS handler). -/
structure DeleteResult where
  id : String
  deletedImages : List String
deriving DecidableEq, Repr

/-- Embedding of `deleteTodo.handler` (src/mcp-service/mcp.js lines
271–297): fail when the item is absent; otherwise remove the item record
and every blob referenced by its `images` list, and confirm with the
item id and the removed image ids. -/
def deleteTodoMcp (store : List TodoItem) (blobs : List String) (todoId : String) :
    Except String (List TodoItem × List String × DeleteResult) :=
  match getItem store todoId with
  | Except.error e => Except.error e
  | Except.ok item =>
    Except.ok (deleteItem store todoId, item.images.foldl deleteObject blobs,
      { id := todoId, deletedImages := item.images })

/-- Deleting a key makes a subsequent `getItem` on it fail. -/
theorem getItem_deleteItem (store : List TodoItem) (todoId : String) :
    getItem (deleteItem store todoId) todoId = Except.error "Todo item not found" := by
  dsimp only [getItem, deleteItem]
  have hnone :
      (store.filter (fun i => i.id != todoId)).find? (fun i => i.id == todoId) = none := by
    rw [List.find?_eq_none]
    intro x hx
    have h2 := (List.mem_filter.mp hx).2
    simp only [bne_iff_ne, ne_eq] at h2
    simp [h2]
  rw [hnone]

/-- `deleteObject` folds only ever shrink the blob store. -/
theorem mem_of_mem_foldl_deleteObject (l : List String) :
    ∀ (blobs : List String) (x : String),
      x ∈ l.foldl deleteObject blobs → x ∈ blobs := by
  induction l with
  | nil =>
    intro blobs x h
    simpa using h
  | cons a t ih =>
    intro blobs x h
    simp only [List.foldl_cons] at h
    exact (List.mem_filter.mp (ih (deleteObject blobs a) x h)).1

/-- Every id in the deleted list is gone from the folded blob store. -/
theorem not_mem_foldl_deleteObject (l : List String) :
    ∀ (blobs : List String) (b : String), b ∈ l → b ∉ l.foldl deleteObject blobs := by
  induction l with
  | nil =>
    intro blobs b h
    simp at h
  | cons a t ih =>
    intro blobs b hmem hcontra
    simp only [List.foldl_cons] at hcontra
    rcases List.mem_cons.mp hmem with rfl | ht
    · have hin : b ∈ deleteObject blobs b :=
        mem_of_mem_foldl_deleteObject t (deleteObject blobs b) b hcontra
      have h2 := (List.mem_filter.mp hin).2
      simp at h2
    · exact ih (deleteObject blobs a) b ht hcontra

/-- A blob id not in the store makes `getObject` fail. -/
theorem getObject_not_mem (blobs : List String) (b : String) (h : b ∉ blobs) :
    getObject blobs b = Except.error "NoSuchKey" := by
  dsimp only [getObject]
  rw [if_neg]
  intro hany
  rw [List.any_eq_true] at hany
  obtain ⟨x, hx, hbeq⟩ := hany
  have hxb : x = b := by simpa using hbeq
  exact h (hxb ▸ hx)

/-- **C8** — a successful delete of an existing item removes the item
record and every blob whose id appears in the item's `images` list: the
subsequent `getItem` on the todo id and `getObject` on each of those
image ids fail, and the confirmation reports the deleted item id
together with exactly the removed image ids. -/
theorem delete_todo_spec (store : List TodoItem) (blobs : List String)
    (todoId : String) (item : TodoItem)
    (hfound : getItem store todoId = Except.ok item) :
    deleteTodoMcp store blobs todoId =
      Except.ok (deleteItem store todoId, item.images.foldl deleteObject blobs,
        { id := todoId, deletedImages := item.images }) ∧
    getItem (deleteItem store todoId) todoId = Except.error "Todo item not found" ∧
    (∀ b ∈ item.images,
      getObject (item.images.foldl deleteObject blobs) b = Except.error "NoSuchKey") := by
  refine ⟨?_, getItem_deleteItem store todoId, ?_⟩
  · dsimp only [deleteTodoMcp]
    rw [hfound]
  · intro b hb
    exact getObject_not_mem _ b (not_mem_foldl_deleteObject item.images blobs b hb)

/-- Witness for C8: deleting the sample item removes its record and its
one image blob while unrelated blobs survive; the confirmation carries
the removed image id. -/
theorem delete_todo_spec_witness :
    deleteTodoMcp [sampleItem] ["img1.avif", "other.webp"] "todo1" =
      Except.ok (deleteItem [sampleItem] "todo1",
        sampleItem.images.foldl deleteObject ["img1.avif", "other.webp"],
        { id := "todo1", deletedImages := sampleItem.images }) ∧
    getObject (sampleItem.images.foldl deleteObject ["img1.avif", "other.webp"])
      "img1.avif" = Except.error "NoSuchKey" :=
  ⟨(delete_todo_spec [sampleItem] ["img1.avif", "other.webp"] "todo1" sampleItem rfl).1,
    (delete_todo_spec [sampleItem] ["img1.avif", "other.webp"] "todo1" sampleItem rfl).2.2
      "img1.avif" (by decide)⟩

/-! ## List ordering (src/mcp-service/mcp.js lines 153–171,
src/api-service/index.js lines 107–121)

`listTodos` returns `scanTable()` directly.  `scanTable` and the id
assignment of `putItem` live in the missing `./dynamodb.js`; per the
spec, ids are freshly generated per create (v4 UUIDs — modelled as the
hypothesis that the supplied ids are pairwise distinct), `created` is
`Date.now()` at creation (modelled as a non-decreasing clock), and scan
returns the records in creation order. -/

/-- One create request as it reaches the persistence step: the fresh id
the store assigns, the `Date.now()` value, and the description. -/
structure CreateReq where
  freshId : String
  now : Nat
  description : String
deriving DecidableEq, Repr

/-- The record the create handler persists for a request without
images (`newTodo` in both create handlers). -/
def toNewItem (r : CreateReq) : TodoItem :=
  { id := r.freshId, description := r.description, created := r.now,
    completed := false, images := [] }

/-- A sequence of create operations, each persisting through
`putItem`. -/
def createSequence (reqs : List CreateReq) (store : List TodoItem) : List TodoItem :=
  match reqs with
  | [] => store
  | r :: rest => createSequence rest (putItem store (toNewItem r))

/-- With pairwise-fresh ids, a create sequence appends its records in
order. -/
theorem createSequence_eq_append (reqs : List CreateReq) :
    ∀ store : List TodoItem,
      (∀ r ∈ reqs, ∀ i ∈ store, i.id ≠ r.freshId) →
      (reqs.map (fun r => r.freshId)).Nodup →
      createSequence reqs store = store ++ reqs.map toNewItem := by
  induction reqs with
  | nil =>
    intro store _ _
    simp [createSequence]
  | cons a t ih =>
    intro store hfresh hnodup
    have hput : putItem store (toNewItem a) = store ++ [toNewItem a] := by
      dsimp only [putItem]
      rw [if_neg]
      intro hany
      rw [List.any_eq_true] at hany
      obtain ⟨i, hi, hbeq⟩ := hany
      have hik : i.id = (toNewItem a).id := by simpa using hbeq
      exact hfresh a (by simp) i hi (by simpa [toNewItem] using hik)
    have hcons : (∀ x ∈ t, ¬ x.freshId = a.freshId) ∧
        (t.map (fun r => r.freshId)).Nodup := by
      simpa using hnodup
    have hfresh2 : ∀ r ∈ t, ∀ i ∈ store ++ [toNewItem a], i.id ≠ r.freshId := by
      intro r hr i hi
      rcases List.mem_append.mp hi with hs | hone
      · exact hfresh r (by simp [hr]) i hs
      · have hia : i = toNewItem a := by simpa using hone
        subst hia
        intro hcontra
        exact hcons.1 r hr (by
          rw [show (toNewItem a).id = a.freshId from rfl] at hcontra
          exact hcontra.symm)
    have hnodup2 : (t.map (fun r => r.freshId)).Nodup := hcons.2
    calc createSequence (a :: t) store
        = createSequence t (putItem store (toNewItem a)) := rfl
      _ = createSequence t (store ++ [toNewItem a]) := by rw [hput]
      _ = (store ++ [toNewItem a]) ++ t.map toNewItem := ih _ hfresh2 hnodup2
      _ = store ++ (a :: t).map toNewItem := by simp

/-- **C9** — after any sequence of creates with fresh ids and a
non-decreasing clock, the list operation returns all items in creation
order: the `created` values are pairwise non-decreasing in list order,
and the item ids are pairwise distinct. -/
theorem list_todos_ordering (reqs : List CreateReq)
    (hnodup : (reqs.map (fun r => r.freshId)).Nodup)
    (hclock : (reqs.map (fun r => r.now)).Pairwise (· ≤ ·)) :
    ((scanTable (createSequence reqs [])).map (fun i => i.created)).Pairwise (· ≤ ·) ∧
    ((scanTable (createSequence reqs [])).map (fun i => i.id)).Nodup := by
  have heq := createSequence_eq_append reqs []
    (by intro r _ i hi; simp at hi) hnodup
  dsimp only [scanTable]
  rw [heq]
  simp only [List.nil_append, List.map_map]
  exact ⟨hclock, hnodup⟩

/-- Witness for C9: two creates with distinct fresh ids and advancing
clock yield a listing with non-decreasing timestamps and distinct
ids. -/
theorem list_todos_ordering_witness :
    ((scanTable (createSequence
      [{ freshId := "a", now := 1, description := "x" },
       { freshId := "b", now := 2, description := "y" }] [])).map
        (fun i => i.created)).Pairwise (· ≤ ·) ∧
    ((scanTable (createSequence
      [{ freshId := "a", now := 1, description := "x" },
       { freshId := "b", now := 2, description := "y" }] [])).map
        (fun i => i.id)).Nodup :=
  list_todos_ordering
    [{ freshId := "a", now := 1, description := "x" },
     { freshId := "b", now := 2, description := "y" }]
    (by decide) (by decide)

/-! ## Orphan-blob get-image (src/mcp-service/mcp.js lines 299–321)

`getImage.handler` first streams the blob (`structureImageContent`),
then scans all items and takes
`items.find(item => item.images?.includes(imageId))`.  When no item
references the image, `find` yields `undefined`, and
`structureTodoItemContent(item)` immediately evaluates `item.id`, which
throws a `TypeError` — modelled as the corresponding `Except.error`.
`handlerWrapper` (lines 122–136) catches any thrown error and returns
`{ isError: true, content: [{ text: 'Error: ' + message }] }`. -/

/-- Embedding of `handlerWrapper` (src/mcp-service/mcp.js lines
122–136): a thrown error becomes a tool-level error result — the
`isError` flag and the prefixed message. -/
def handlerWrapper {A : Type} (r : Except String A) : Bool × String :=
  match r with
  | Except.ok _ => (false, "")
  | Except.error e => (true, String.append "Error: " e)

/-- Embedding of `getImage.handler` (src/mcp-service/mcp.js lines
313–320): read the blob, scan for the owning item, and access its `id`
field — which throws when the scan found nothing. -/
def getImageMcp (store : List TodoItem) (blobs : List String) (imageId : String) :
    Except String (String × TodoItem) :=
  match getObject blobs imageId with
  | Except.error e => Except.error e
  | Except.ok img =>
    match (scanTable store).find? (fun i => decide (imageId ∈ i.images)) with
    | none => Except.error "Cannot read properties of undefined (reading id)"
    | some item => Except.ok (img, item)

/-- **C10** — a get-image call on an existing blob that no item
references is not a success: the owning-item lookup finds nothing, the
field access on the missing item throws, and the wrapped handler returns
a tool-level error result (`isError` set, descriptive message). -/
theorem get_image_orphan (store : List TodoItem) (blobs : List String)
    (imageId : String) (hblob : imageId ∈ blobs)
    (horphan : ∀ i ∈ store, imageId ∉ i.images) :
    getImageMcp store blobs imageId =
      Except.error "Cannot read properties of undefined (reading id)" ∧
    (handlerWrapper (getImageMcp store blobs imageId)).1 = true ∧
    (handlerWrapper (getImageMcp store blobs imageId)).2 =
      String.append "Error: " "Cannot read properties of undefined (reading id)" := by
  have hobj : getObject blobs imageId = Except.ok imageId := by
    dsimp only [getObject]
    rw [if_pos]
    rw [List.any_eq_true]
    exact ⟨imageId, hblob, by simp⟩
  have hfind :
      (scanTable store).find? (fun i => decide (imageId ∈ i.images)) = none := by
    rw [List.find?_eq_none]
    intro i hi
    simpa using horphan i hi
  have hres : getImageMcp store blobs imageId =
      Except.error "Cannot read properties of undefined (reading id)" := by
    dsimp only [getImageMcp]
    rw [hobj]
    dsimp only
    rw [hfind]
  rw [hres]
  exact ⟨rfl, rfl, rfl⟩

/-- Witness for C10: a blob present in the blob store but referenced by
no item makes the wrapped get-image tool call return an error result. -/
theorem get_image_orphan_witness :
    (handlerWrapper (getImageMcp [sampleItem] ["img1.avif", "orphan.avif"]
      "orphan.avif")).1 = true :=
  (get_image_orphan [sampleItem] ["img1.avif", "orphan.avif"] "orphan.avif"
    (by decide) (by decide)).2.1

end TodoApp
